import Mathlib

/-!
Verification of the pipeline script `hfDownloadQuantizeLLM.py`.

The script is a linear orchestration of external processes (Hugging Face
login, `git lfs install` / `git clone`, an fp16 conversion script and a
quantization binary).  We embed it shallowly:

* Python strings are Lean `String`s; `str.split('/')` is modelled by
  `splitOnChar` on the underlying character list (Python semantics:
  splitting the empty string yields `[""]`, the result is never empty).
* Each function of the script is a pure function from an abstract `World`
  (the outcomes of the external processes, the environment, the arguments
  and the interactive inputs) to the list of observable `Event`s it
  produces: console prints, prompts, argv-style subprocess launches,
  shell-interpreted command lines and the login call.
-/

/-- Python `s.split(sep)` for a single-character separator, on character
lists: splitting `""` gives `[""]`; occurrences of the separator delimit
(possibly empty) fields. -/
def splitOnChar (sep : Char) : List Char → List (List Char)
  | [] => [[]]
  | c :: cs =>
    if c = sep then [] :: splitOnChar sep cs
    else
      match splitOnChar sep cs with
      | [] => [[c]]
      | r :: rs => (c :: r) :: rs

theorem splitOnChar_ne_nil (sep : Char) (l : List Char) :
    splitOnChar sep l ≠ [] := by
  induction l with
  | nil => simp [splitOnChar]
  | cons c cs ih =>
    simp only [splitOnChar]
    split
    · simp
    · split
      · simp_all
      · simp

theorem splitOnChar_of_not_mem (sep : Char) (l : List Char)
    (h : sep ∉ l) : splitOnChar sep l = [l] := by
  induction l with
  | nil => rfl
  | cons c cs ih =>
    simp only [List.mem_cons, not_or] at h
    simp only [splitOnChar]
    rw [if_neg (fun hc => h.1 hc.symm), ih h.2]

theorem not_mem_of_mem_splitOnChar (sep : Char) (l : List Char) :
    ∀ x ∈ splitOnChar sep l, sep ∉ x := by
  induction l with
  | nil =>
    intro x hx
    simp only [splitOnChar, List.mem_singleton] at hx
    simp [hx]
  | cons c cs ih =>
    intro x hx
    simp only [splitOnChar] at hx
    by_cases hc : c = sep
    · rw [if_pos hc] at hx
      rcases List.mem_cons.mp hx with h | h
      · simp [h]
      · exact ih x h
    · rw [if_neg hc] at hx
      rcases hr : splitOnChar sep cs with _ | ⟨r, rs⟩
      · exact absurd hr (splitOnChar_ne_nil sep cs)
      · rw [hr] at hx
        rcases List.mem_cons.mp hx with h | h
        · subst h
          intro hmem
          rcases List.mem_cons.mp hmem with h | h
          · exact hc h.symm
          · exact ih r (hr ▸ List.mem_cons_self r rs) h
        · exact ih x (hr ▸ List.mem_cons_of_mem r h)

theorem splitOnChar_append_sep (sep : Char) (a b : List Char)
    (ha : sep ∉ a) (hb : sep ∉ b) :
    splitOnChar sep (a ++ sep :: b) = [a, b] := by
  induction a with
  | nil =>
    have hb' := splitOnChar_of_not_mem sep b hb
    simp [splitOnChar, hb']
  | cons c cs ih =>
    simp only [List.mem_cons, not_or] at ha
    simp only [List.cons_append, splitOnChar]
    rw [if_neg (fun hc => ha.1 hc.symm), List.append_eq, ih ha.2]

theorem intercalate_pair (sep : Char) (a b : List Char) :
    List.intercalate [sep] [a, b] = a ++ sep :: b := by
  simp [List.intercalate, List.intersperse]

theorem intercalate_single (sep : Char) (a : List Char) :
    List.intercalate [sep] [a] = a := by
  simp [List.intercalate, List.intersperse]

/-- `extract_model_id` from `hfDownloadQuantizeLLM.py`: splits the
repository URL on `/` and rejoins the last two parts (`parts[-2:]`,
modelled by `drop (length - 2)`, which like the Python slice returns the
whole list when it has fewer than two elements). Pure, no I/O. -/
def extract_model_id (repository_url : String) : String :=
  let parts := splitOnChar '/' repository_url.data
  String.mk (List.intercalate ['/'] (parts.drop (parts.length - 2)))

theorem drop_length_sub_two (pre : List (List Char)) (a b : List Char) :
    (pre ++ [a, b]).drop ((pre ++ [a, b]).length - 2) = [a, b] := by
  have hlen : (pre ++ [a, b]).length = pre.length + 2 := by
    simp
  rw [hlen, Nat.add_sub_cancel]
  exact List.drop_left pre [a, b]

theorem exists_last_two {α : Type} (l : List α) (h : 2 ≤ l.length) :
    ∃ pre a b, l = pre ++ [a, b] := by
  rcases hr : l.reverse with _ | ⟨x, t⟩
  · exfalso
    have : l = [] := by
      simpa using congrArg List.reverse hr
    simp [this] at h
  · rcases ht : t with _ | ⟨y, t2⟩
    · exfalso
      have : l = [x] := by
        have := congrArg List.reverse hr
        simp [ht] at this
        simp [this, ht]
      simp [this] at h
    · refine ⟨t2.reverse, y, x, ?_⟩
      have := congrArg List.reverse hr
      simp [ht] at this
      simp [this]

theorem extract_model_id_eq_of_last_two (u : String)
    (pre : List (List Char)) (a b : List Char)
    (h : splitOnChar '/' u.data = pre ++ [a, b]) :
    extract_model_id u = String.mk (a ++ '/' :: b) := by
  simp only [extract_model_id]
  rw [h, drop_length_sub_two, intercalate_pair]

/-- C1: for every repository reference whose split on `/` has at least two
segments, `extract_model_id` returns exactly the last two segments joined
by `/` (it is a pure function: no I/O, no well-formedness validation). -/
theorem extract_model_id_last_two (u : String)
    (h : 2 ≤ (splitOnChar '/' u.data).length) :
    ∃ pre a b, splitOnChar '/' u.data = pre ++ [a, b] ∧
      extract_model_id u = String.mk (a ++ '/' :: b) := by
  obtain ⟨pre, a, b, hd⟩ := exists_last_two _ h
  exact ⟨pre, a, b, hd, extract_model_id_eq_of_last_two u pre a b hd⟩

/-- Witness for C1 at the concrete reference of the spec example. -/
theorem extract_model_id_last_two_witness :
    2 ≤ (splitOnChar '/' ("https://host/org/model-name" : String).data).length ∧
    (∃ pre a b,
      splitOnChar '/' ("https://host/org/model-name" : String).data = pre ++ [a, b] ∧
      extract_model_id "https://host/org/model-name" = String.mk (a ++ '/' :: b)) ∧
    extract_model_id "https://host/org/model-name" = "org/model-name" :=
  ⟨by decide, extract_model_id_last_two "https://host/org/model-name" (by decide),
    by decide⟩

/-- C10: on a reference with no `/` (the empty string included),
`extract_model_id` is the identity; it does not raise. -/
theorem extract_model_id_no_slash (u : String) (h : '/' ∉ u.data) :
    extract_model_id u = u := by
  apply String.ext
  simp only [extract_model_id]
  rw [splitOnChar_of_not_mem '/' u.data h]
  simp [intercalate_single]

/-- Witness for C10 at the empty string. -/
theorem extract_model_id_no_slash_witness :
    ('/' ∉ ("" : String).data) ∧ extract_model_id "" = "" :=
  ⟨by decide, extract_model_id_no_slash "" (by decide)⟩

/-- C9: `extract_model_id` is idempotent, and its result always has at
most two `/`-delimited segments. -/
theorem extract_model_id_idem (u : String) :
    extract_model_id (extract_model_id u) = extract_model_id u ∧
    (splitOnChar '/' (extract_model_id u).data).length ≤ 2 := by
  rcases Nat.lt_or_ge (splitOnChar '/' u.data).length 2 with hlt | hge
  · have h1 : (splitOnChar '/' u.data).length = 1 :=
      Nat.le_antisymm (Nat.lt_succ_iff.mp hlt)
        (Nat.succ_le_of_lt (List.length_pos.mpr (splitOnChar_ne_nil _ _)))
    rcases List.length_eq_one.mp h1 with ⟨x, hp⟩
    have hx : '/' ∉ x :=
      not_mem_of_mem_splitOnChar '/' u.data x (by rw [hp]; exact List.mem_singleton_self x)
    have hext : extract_model_id u = String.mk x := by
      simp only [extract_model_id]
      rw [hp]
      simp [intercalate_single]
    constructor
    · rw [hext, extract_model_id_no_slash (String.mk x) hx]
    · rw [hext]
      show (splitOnChar '/' x).length ≤ 2
      rw [splitOnChar_of_not_mem '/' x hx]
      simp
  · obtain ⟨pre, a, b, hp⟩ := exists_last_two _ hge
    have hext := extract_model_id_eq_of_last_two u pre a b hp
    have ha : '/' ∉ a :=
      not_mem_of_mem_splitOnChar '/' u.data a (by rw [hp]; simp)
    have hb : '/' ∉ b :=
      not_mem_of_mem_splitOnChar '/' u.data b (by rw [hp]; simp)
    have hsplit : splitOnChar '/' (extract_model_id u).data = [a, b] := by
      rw [hext]
      show splitOnChar '/' (a ++ '/' :: b) = [a, b]
      exact splitOnChar_append_sep '/' a b ha hb
    constructor
    · have := extract_model_id_eq_of_last_two (extract_model_id u) [] a b
        (by simpa using hsplit)
      rw [this, hext]
    · rw [hsplit]
      simp

/-- Observable effects of the script: console prints, interactive prompts,
argv-style subprocess launches, shell-interpreted command lines, and the
Hugging Face login call. -/
inductive Event where
  | print (s : String)
  | prompt (msg : String)
  | run (cmd : List String)
  | runShell (cmd : String)
  | login (token : String)
  deriving DecidableEq

/-- Abstract outside world of one run: the environment variable, the
outcomes (exit status, captured stdout/stderr) of each external process,
the command-line argument vector (`sys.argv`, program name included) and
the interactive console inputs. -/
structure World where
  hfToken : Option String
  loginOk : Bool
  loginErr : String
  lfsExit : Nat
  lfsStdout : String
  lfsStderr : String
  cloneStderrLines : List String
  cloneExit : Int
  convertExit : Nat
  convertStdout : String
  convertStderr : String
  quantizeExit : Nat
  quantizeErr : String
  argv : List String
  stdinUrl : String
  stdinMethod : String

/-- `hf_login` from the script: reads `HF_TOKEN`; a present non-empty
token leads to a login attempt whose failure is caught and printed; an
absent (or empty, Python truthiness) token is reported. Always returns
normally. -/
def hf_login (w : World) : List Event :=
  match w.hfToken with
  | some t =>
    if t ≠ "" then
      Event.login t ::
        (if w.loginOk then [Event.print "Logged in to Hugging Face successfully."]
         else [Event.print ("Failed to log in to Hugging Face: " ++ w.loginErr)])
    else [Event.print "Hugging Face token not found in environment variables."]
  | none => [Event.print "Hugging Face token not found in environment variables."]

/-- `clone_repository` from the script: runs `git lfs install` with
`check=True`; a non-zero exit raises `CalledProcessError`, caught by the
handler which prints the diagnostic output and returns — no clone runs.
Otherwise the clone subprocess runs, its stderr is streamed line by line,
and the return code is reported. Always returns normally. -/
def clone_repository (w : World) (repository_url : String) : List Event :=
  Event.run ["git", "lfs", "install"] ::
    (if w.lfsExit ≠ 0 then
      [Event.print "Error during Git LFS initialization:", Event.print w.lfsStderr]
    else
      Event.print ("Git LFS initialized.\n" ++ w.lfsStdout) ::
      Event.run ["git", "clone", repository_url] ::
      (w.cloneStderrLines.map Event.print ++
        [if w.cloneExit = 0 then Event.print "Repository cloned successfully."
         else Event.print "Error occurred while cloning the repository."]))

/-- `convert_model_to_fp16` from the script: runs the conversion command
with `check=True`; a non-zero exit raises, is caught, and the captured
stderr is printed. Always returns normally (no re-raise). -/
def convert_model_to_fp16 (w : World) (model_name fp16_output_file : String) :
    List Event :=
  Event.run ["python", "llama.cpp/convert.py", model_name, "--outtype", "f16",
      "--outfile", fp16_output_file] ::
    (if w.convertExit = 0 then
      [Event.print "Model conversion to fp16 successful. Output:",
       Event.print w.convertStdout]
    else
      [Event.print "An error occurred during model conversion:",
       Event.print w.convertStderr])

/-- The fixed quantization method catalog of the script, in insertion
order (Python dicts preserve insertion order). -/
def QUANTIZATION_METHODS : List (String × String) :=
  [("q2_k", "Uses Q4_K for the attention.vw and feed_forward.w2 tensors, Q2_K for the other tensors."),
   ("q3_k_l", "Uses Q5_K for the attention.wv, attention.wo, and feed_forward.w2 tensors, else Q3_K"),
   ("q3_k_m", "Uses Q4_K for the attention.wv, attention.wo, and feed_forward.w2 tensors, else Q3_K"),
   ("q3_k_s", "Uses Q3_K for all tensors"),
   ("q4_0", "Original quant method, 4-bit."),
   ("q4_1", "Higher accuracy than q4_0 but not as high as q5_0. However has quicker inference than q5 models."),
   ("q4_k_m", "Uses Q6_K for half of the attention.wv and feed_forward.w2 tensors, else Q4_K"),
   ("q4_k_s", "Uses Q4_K for all tensors"),
   ("q5_0", "Higher accuracy, higher resource usage and slower inference."),
   ("q5_1", "Even higher accuracy, resource usage and slower inference."),
   ("q5_k_m", "Uses Q6_K for half of the attention.wv and feed_forward.w2 tensors, else Q5_K"),
   ("q5_k_s", "Uses Q5_K for all tensors"),
   ("q6_k", "Uses Q8_K for all tensors"),
   ("q8_0", "Almost indistinguishable from float16. High resource use and slow. Not recommended for most users.")]

/-- Python `str.lower`, per character (faithful on ASCII). -/
def pyLower (s : String) : String := String.mk (s.data.map Char.toLower)

/-- Python `str.upper`, per character (faithful on ASCII). -/
def pyUpper (s : String) : String := String.mk (s.data.map Char.toUpper)

/-- `model_id.split('/')[-1]` from `main`: the final segment of the model
identifier (the split is never empty, so the `[-1]` index never raises). -/
def model_name_of (model_id : String) : String :=
  String.mk ((splitOnChar '/' model_id.data).getLastD [])

/-- The intermediate artifact path of `main`, the f-string
`MODEL_NAME/MODEL_NAME.lower().fp16.bin`. -/
def fp16_output_file_of (MODEL_NAME : String) : String :=
  MODEL_NAME ++ "/" ++ pyLower MODEL_NAME ++ ".fp16.bin"

/-- The final artifact path `qtype` of `main`, the f-string
`MODEL_NAME/MODEL_NAME.lower().METHOD.upper().gguf`. -/
def qtype_of (MODEL_NAME method : String) : String :=
  MODEL_NAME ++ "/" ++ pyLower MODEL_NAME ++ "." ++ pyUpper method ++ ".gguf"

/-- The quantization command line of `main`: direct f-string
interpolation of the three arguments, no escaping. -/
def quantize_command_of (fp16_output_file qtype method : String) : String :=
  "./llama.cpp/quantize " ++ fp16_output_file ++ " " ++ qtype ++ " " ++ method

/-- The repository URL used by `main`: `sys.argv[1]` when present, else
the interactive input. -/
def repository_url_of (w : World) : String :=
  if w.argv.length > 1 then w.argv.getD 1 "" else w.stdinUrl

/-- The method code used by `main`: `sys.argv[2]` when present, else the
interactive input. -/
def method_of (w : World) : String :=
  if w.argv.length > 2 then w.argv.getD 2 "" else w.stdinMethod

/-- The catalog lines printed by `main`, one `f"{key}: {description}"`
line per entry, in catalog order. -/
def catalogLines : List String :=
  QUANTIZATION_METHODS.map (fun kd => kd.1 ++ ": " ++ kd.2)

/-- `MODEL_NAME` as computed by `main` for a given world. -/
def pipeline_model_name (w : World) : String :=
  model_name_of (extract_model_id (repository_url_of w))

/-- `fp16_output_file` as computed by `main` for a given world. -/
def pipeline_fp16_file (w : World) : String :=
  fp16_output_file_of (pipeline_model_name w)

/-- `qtype` as computed by `main` for a given world. -/
def pipeline_qtype (w : World) : String :=
  qtype_of (pipeline_model_name w) (method_of w)

/-- `quantize_command` as computed by `main` for a given world. -/
def pipeline_quantize_command (w : World) : String :=
  quantize_command_of (pipeline_fp16_file w) (pipeline_qtype w) (method_of w)

/-- `main` from the script: login, obtain the URL, derive names and
paths, clone, convert, obtain the method (printing the catalog when it
must be prompted for), then run the quantization command through the
shell and report its outcome. -/
def main_events (w : World) : List Event :=
  hf_login w ++
  (if w.argv.length > 1 then [] else [Event.prompt "Enter the Git repository URL: "]) ++
  clone_repository w (repository_url_of w) ++
  convert_model_to_fp16 w (pipeline_model_name w) (pipeline_fp16_file w) ++
  (if w.argv.length > 2 then []
   else
    Event.print "Please choose a quantization method from the following options:" ::
      catalogLines.map Event.print ++
      [Event.prompt "Enter your chosen quantization method: "]) ++
  (Event.runShell (pipeline_quantize_command w) ::
    (if w.quantizeExit = 0 then
      [Event.print ("Quantization with method \x27" ++ method_of w ++
        "\x27 completed successfully.")]
    else
      [Event.print ("An error occurred during quantization: " ++ w.quantizeErr)]))

theorem lfs_run_mem (w : World) :
    Event.run ["git", "lfs", "install"] ∈ main_events w := by
  simp [main_events, clone_repository]

theorem convert_run_mem (w : World) :
    Event.run ["python", "llama.cpp/convert.py", pipeline_model_name w, "--outtype",
      "f16", "--outfile", pipeline_fp16_file w] ∈ main_events w := by
  simp [main_events, convert_model_to_fp16]

theorem quantize_shell_mem (w : World) :
    Event.runShell (pipeline_quantize_command w) ∈ main_events w := by
  simp [main_events]

/-- Sample world used as the concrete input of the witnesses: no token
in the environment, failing LFS initialization and conversion, one
command-line argument (the URL), the method typed interactively. -/
def sampleWorld : World where
  hfToken := none
  loginOk := false
  loginErr := ""
  lfsExit := 1
  lfsStdout := ""
  lfsStderr := "lfs failed"
  cloneStderrLines := []
  cloneExit := 0
  convertExit := 1
  convertStdout := ""
  convertStderr := "conversion failed"
  quantizeExit := 0
  quantizeErr := ""
  argv := ["hfDownloadQuantizeLLM.py", "https://host/org/model"]
  stdinUrl := ""
  stdinMethod := "q4_k_m"

theorem model_name_no_slash (model_id : String) :
    '/' ∉ (model_name_of model_id).data := by
  have hne := splitOnChar_ne_nil '/' model_id.data
  rcases hp : splitOnChar '/' model_id.data with _ | ⟨x, xs⟩
  · exact absurd hp hne
  · have hmem : (splitOnChar '/' model_id.data).getLastD [] ∈ x :: xs := by
      rw [hp, List.getLastD_cons]
      exact List.getLastD_mem_cons xs x
    exact not_mem_of_mem_splitOnChar '/' model_id.data _ (hp ▸ hmem)

/-- C2: the intermediate artifact path computed by the pipeline is
exactly `name ++ "/" ++ lowercase name ++ ".fp16.bin"`, and the final
artifact path is exactly `name ++ "/" ++ lowercase name ++ "." ++
uppercase method ++ ".gguf"`; the intermediate string is the one handed
to the converter invocation in the trace, and the spec example Foo-7B
with q4_k_m evaluates as stated. -/
theorem artifact_paths (w : World) :
    pipeline_fp16_file w =
      pipeline_model_name w ++ "/" ++ pyLower (pipeline_model_name w) ++ ".fp16.bin" ∧
    pipeline_qtype w =
      pipeline_model_name w ++ "/" ++ pyLower (pipeline_model_name w) ++ "." ++
        pyUpper (method_of w) ++ ".gguf" ∧
    Event.run ["python", "llama.cpp/convert.py", pipeline_model_name w, "--outtype",
      "f16", "--outfile",
      pipeline_model_name w ++ "/" ++ pyLower (pipeline_model_name w) ++ ".fp16.bin"]
      ∈ main_events w ∧
    fp16_output_file_of "Foo-7B" = "Foo-7B/foo-7b.fp16.bin" ∧
    qtype_of "Foo-7B" "q4_k_m" = "Foo-7B/foo-7b.Q4_K_M.gguf" :=
  ⟨rfl, rfl, convert_run_mem w, by decide, by decide⟩

/-- A world whose method code comes from an arbitrary interactive
string: used to exhibit that even a code outside the catalog reaches
the shell command unchanged. -/
def worldWithMethod (m : String) : World :=
  { sampleWorld with stdinMethod := m }

/-- C5: for every world — hence every method string, catalog key or
not — the quantizer invocation is the single shell-interpreted command
line built by direct interpolation of the fp16 path, output path and
method with no escaping; in particular the non-catalog code
"definitely_not_a_method" passes through to the shell unchanged. -/
theorem quantize_no_validation (w : World) :
    pipeline_quantize_command w =
      "./llama.cpp/quantize " ++ pipeline_fp16_file w ++ " " ++ pipeline_qtype w ++
        " " ++ method_of w ∧
    Event.runShell (pipeline_quantize_command w) ∈ main_events w ∧
    ("definitely_not_a_method" ∉ QUANTIZATION_METHODS.map Prod.fst) ∧
    Event.runShell (pipeline_quantize_command (worldWithMethod "definitely_not_a_method"))
      ∈ main_events (worldWithMethod "definitely_not_a_method") ∧
    method_of (worldWithMethod "definitely_not_a_method") = "definitely_not_a_method" :=
  ⟨rfl, quantize_shell_mem w, by decide,
    quantize_shell_mem (worldWithMethod "definitely_not_a_method"), by decide⟩

/-- C8: the model name never contains a slash, so it is exactly the
directory component (before the slash) of both artifact paths, whose
file-name components use the lowercase form; the converter receives the
original-case name as its model argument. -/
theorem case_convention (w : World) :
    '/' ∉ (pipeline_model_name w).data ∧
    (pipeline_fp16_file w).data =
      (pipeline_model_name w).data ++ '/' ::
        ((pyLower (pipeline_model_name w)).data ++ (".fp16.bin" : String).data) ∧
    (pipeline_qtype w).data =
      (pipeline_model_name w).data ++ '/' ::
        ((pyLower (pipeline_model_name w)).data ++ ("." : String).data ++
          (pyUpper (method_of w)).data ++ (".gguf" : String).data) ∧
    Event.run ["python", "llama.cpp/convert.py", pipeline_model_name w, "--outtype",
      "f16", "--outfile", fp16_output_file_of (pipeline_model_name w)]
      ∈ main_events w := by
  refine ⟨model_name_no_slash _, ?_, ?_, convert_run_mem w⟩
  · show (fp16_output_file_of (pipeline_model_name w)).data = _
    simp [fp16_output_file_of]
  · show (qtype_of (pipeline_model_name w) (method_of w)).data = _
    simp [qtype_of]

/-- C3: when the conversion subprocess exits non-zero, the converter
invoker logs the error banner and the captured stderr and returns
normally (no re-raise), and the pipeline still issues the quantization
shell command referencing the same fp16 path. -/
theorem conversion_failure_nonfatal (w : World) (h : w.convertExit ≠ 0) :
    convert_model_to_fp16 w (pipeline_model_name w) (pipeline_fp16_file w) =
      [Event.run ["python", "llama.cpp/convert.py", pipeline_model_name w, "--outtype",
        "f16", "--outfile", pipeline_fp16_file w],
       Event.print "An error occurred during model conversion:",
       Event.print w.convertStderr] ∧
    Event.runShell (quantize_command_of (pipeline_fp16_file w) (pipeline_qtype w)
      (method_of w)) ∈ main_events w := by
  refine ⟨?_, quantize_shell_mem w⟩
  simp [convert_model_to_fp16, h]

/-- Witness for C3 at a concrete world whose conversion step fails. -/
theorem conversion_failure_nonfatal_witness :
    sampleWorld.convertExit ≠ 0 ∧
    Event.runShell (quantize_command_of (pipeline_fp16_file sampleWorld)
      (pipeline_qtype sampleWorld) (method_of sampleWorld)) ∈ main_events sampleWorld :=
  ⟨by decide, (conversion_failure_nonfatal sampleWorld (by decide)).2⟩

/-- C4: when `git lfs install` exits non-zero, the acquirer prints the
error banner and the command's stderr, runs no clone subprocess, and
returns normally; the conversion and quantization invocations still
appear in the pipeline trace. -/
theorem lfs_failure_no_clone_nonfatal (w : World) (h : w.lfsExit ≠ 0) :
    clone_repository w (repository_url_of w) =
      [Event.run ["git", "lfs", "install"],
       Event.print "Error during Git LFS initialization:",
       Event.print w.lfsStderr] ∧
    Event.run ["git", "clone", repository_url_of w] ∉
      clone_repository w (repository_url_of w) ∧
    Event.run ["python", "llama.cpp/convert.py", pipeline_model_name w, "--outtype",
      "f16", "--outfile", pipeline_fp16_file w] ∈ main_events w ∧
    Event.runShell (pipeline_quantize_command w) ∈ main_events w := by
  have hclone : clone_repository w (repository_url_of w) =
      [Event.run ["git", "lfs", "install"],
       Event.print "Error during Git LFS initialization:",
       Event.print w.lfsStderr] := by
    simp [clone_repository, h]
  refine ⟨hclone, ?_, convert_run_mem w, quantize_shell_mem w⟩
  rw [hclone]
  intro hmem
  simp only [List.mem_cons, List.not_mem_nil, or_false] at hmem
  rcases hmem with h1 | h2 | h3
  · have := (Event.run.injEq _ _).mp h1
    simp at this
  · exact Event.noConfusion h2
  · exact Event.noConfusion h3

/-- Witness for C4 at a concrete world whose LFS initialization fails. -/
theorem lfs_failure_no_clone_nonfatal_witness :
    sampleWorld.lfsExit ≠ 0 ∧
    Event.run ["git", "clone", repository_url_of sampleWorld] ∉
      clone_repository sampleWorld (repository_url_of sampleWorld) :=
  ⟨by decide, (lfs_failure_no_clone_nonfatal sampleWorld (by decide)).2.1⟩

/-- C7: when `HF_TOKEN` is absent the credential provider prints that
fact and returns normally, and the acquisition, conversion and
quantization invocations all still appear in the pipeline trace. -/
theorem token_absent_nonfatal (w : World) (h : w.hfToken = none) :
    hf_login w = [Event.print "Hugging Face token not found in environment variables."] ∧
    Event.run ["git", "lfs", "install"] ∈ main_events w ∧
    Event.run ["python", "llama.cpp/convert.py", pipeline_model_name w, "--outtype",
      "f16", "--outfile", pipeline_fp16_file w] ∈ main_events w ∧
    Event.runShell (pipeline_quantize_command w) ∈ main_events w :=
  ⟨by simp [hf_login, h], lfs_run_mem w, convert_run_mem w, quantize_shell_mem w⟩

/-- C6: when no second command-line argument supplies the method, the
printed catalog is exactly these 14 lines, one `code: description` per
entry, appearing contiguously and in catalog order in the trace. -/
theorem catalog_printed (w : World) (h : ¬ w.argv.length > 2) :
    catalogLines =
      ["q2_k: Uses Q4_K for the attention.vw and feed_forward.w2 tensors, Q2_K for the other tensors.",
       "q3_k_l: Uses Q5_K for the attention.wv, attention.wo, and feed_forward.w2 tensors, else Q3_K",
       "q3_k_m: Uses Q4_K for the attention.wv, attention.wo, and feed_forward.w2 tensors, else Q3_K",
       "q3_k_s: Uses Q3_K for all tensors",
       "q4_0: Original quant method, 4-bit.",
       "q4_1: Higher accuracy than q4_0 but not as high as q5_0. However has quicker inference than q5 models.",
       "q4_k_m: Uses Q6_K for half of the attention.wv and feed_forward.w2 tensors, else Q4_K",
       "q4_k_s: Uses Q4_K for all tensors",
       "q5_0: Higher accuracy, higher resource usage and slower inference.",
       "q5_1: Even higher accuracy, resource usage and slower inference.",
       "q5_k_m: Uses Q6_K for half of the attention.wv and feed_forward.w2 tensors, else Q5_K",
       "q5_k_s: Uses Q5_K for all tensors",
       "q6_k: Uses Q8_K for all tensors",
       "q8_0: Almost indistinguishable from float16. High resource use and slow. Not recommended for most users."] ∧
    catalogLines.length = 14 ∧
    main_events w =
      (hf_login w ++
        (if w.argv.length > 1 then [] else [Event.prompt "Enter the Git repository URL: "]) ++
        clone_repository w (repository_url_of w) ++
        convert_model_to_fp16 w (pipeline_model_name w) (pipeline_fp16_file w) ++
        [Event.print "Please choose a quantization method from the following options:"]) ++
      catalogLines.map Event.print ++
      ([Event.prompt "Enter your chosen quantization method: "] ++
        (Event.runShell (pipeline_quantize_command w) ::
          (if w.quantizeExit = 0 then
            [Event.print ("Quantization with method \x27" ++ method_of w ++
              "\x27 completed successfully.")]
          else
            [Event.print ("An error occurred during quantization: " ++ w.quantizeErr)]))) := by
  refine ⟨by decide, by decide, ?_⟩
  simp only [main_events, if_neg h, List.append_assoc, List.cons_append,
    List.singleton_append, List.nil_append]

/-- Witness for C6 at a concrete world whose argument vector has no
second argument. -/
theorem catalog_printed_witness :
    (¬ sampleWorld.argv.length > 2) ∧ catalogLines.length = 14 :=
  ⟨by decide, (catalog_printed sampleWorld (by decide)).2.1⟩

/-- Witness for C7 at a concrete world with no token in the
environment. -/
theorem token_absent_nonfatal_witness :
    sampleWorld.hfToken = none ∧
    hf_login sampleWorld =
      [Event.print "Hugging Face token not found in environment variables."] :=
  ⟨by decide, (token_absent_nonfatal sampleWorld (by decide)).1⟩
